import Mathlib

/-!
Sandbox lifecycle engine: a shallow embedding.

This file embeds the sandbox subsystem of the repository
(`packages/agent-core/src/sandbox/{config,runner,utils}.ts`) in Lean and
proves the specified properties about it.

Modelling conventions:
* JavaScript numbers are modelled as `Rat` (every identifier, limit and
  timeout in the claims is an ordinary finite decimal). `Number.isInteger`
  becomes "the reduced denominator is 1". `NaN`/`Infinity` are not
  representable in this model; the `Number.isFinite` guard is therefore
  always satisfied.
* JavaScript strings are Lean `String`s; scanning is done on the underlying
  character list (UTF-16 units and Unicode code points agree on every
  character these claims touch).
* Environment objects (`Record<string, string>`, `NodeJS.ProcessEnv`) are
  insertion-ordered association lists, matching JavaScript object key order
  for non-index keys; spread syntax becomes an in-place-update fold.
* Thrown exceptions become `Except String` with the exact message strings of
  the source.
* Ambient process state read by the code (`process.getuid`/`process.getgid`,
  the working directory consulted by `path.resolve`, the randomness of
  `randomBytes`) is passed as explicit parameters.
-/

/-! ## JavaScript number helpers -/

/-- `Number.isInteger` on the `Rat` model of a JS number. -/
def jsNumberIsInteger (q : Rat) : Bool := q.den = 1

/-- Fractional decimal digits of `rem / den` by long division (`fuel` bounds
the digit count; every value stringified by this program terminates long
before the bound). -/
def fracDigits : Nat → Nat → Nat → List Char
  | 0, _, _ => []
  | _ + 1, 0, _ => []
  | fuel + 1, rem, den =>
    Char.ofNat (48 + rem * 10 / den) :: fracDigits fuel (rem * 10 % den) den

/-- `String(x)` for the JS numbers this program stringifies: integers print
with no decimal point, finite decimal fractions as `d.dd`. -/
def jsNumberToString (q : Rat) : String :=
  if q.den = 1 then toString q.num
  else
    let sign := if q.num < 0 then "-" else ""
    let n := q.num.natAbs
    sign ++ toString (n / q.den) ++ "." ++ String.mk (fracDigits 40 (n % q.den) q.den)

/-! ## Character-list string helpers (kernel-computable stand-ins for the
JS string methods used by the source) -/

/-- `s.includes(c)` for a single character. -/
def strContainsChar (s : String) (c : Char) : Bool := s.data.contains c

/-- Whether the string starts with `/` (`s.startsWith('/')`). -/
def strStartsWithSlash (s : String) : Bool :=
  match s.data with
  | '/' :: _ => true
  | _ => false

/-- The character class of the JS regex `[\s\0]` (whitespace or NUL);
`Char.isWhitespace` covers the ASCII whitespace the images in question can
contain, extended with the vertical-tab and form-feed characters of `\s`. -/
def jsWhitespaceOrNul (c : Char) : Bool :=
  c.isWhitespace || c = '\x00' || c = '\x0b' || c = '\x0c'

/-- Splits a character list on `/` (the list-level `String.split('/')`). -/
def splitOnSlashChars : List Char → List (List Char)
  | [] => [[]]
  | '/' :: rest => [] :: splitOnSlashChars rest
  | c :: rest =>
    match splitOnSlashChars rest with
    | [] => [[c]]
    | seg :: segs => (c :: seg) :: segs

/-- Processes `.`/`..`/empty segments of an absolute POSIX path
(the normalization step of `path.resolve`). -/
def normalizeSegments (acc : List (List Char)) : List (List Char) → List (List Char)
  | [] => acc.reverse
  | seg :: rest =>
    if seg = [] ∨ seg = ['.'] then normalizeSegments acc rest
    else if seg = ['.', '.'] then
      match acc with
      | [] => normalizeSegments [] rest
      | _ :: accTail => normalizeSegments accTail rest
    else normalizeSegments (seg :: acc) rest

/-- `path.resolve(p)` on POSIX with the ambient process working directory
made explicit: an absolute `p` is normalized, a relative `p` is joined to
the process working directory first. -/
def posixResolve (processCwd p : String) : String :=
  let full := if strStartsWithSlash p then p else processCwd ++ "/" ++ p
  let segs := normalizeSegments [] (splitOnSlashChars full.data)
  "/" ++ String.intercalate "/" (segs.map String.mk)

/-- `path.basename` on POSIX: trailing slashes are ignored and the part
after the last remaining slash is returned. -/
def posixBasename (p : String) : String :=
  let trimmed := (p.data.reverse.dropWhile (fun c => c = '/'))
  String.mk (trimmed.takeWhile (fun c => c ≠ '/')).reverse

/-! ## config.ts -/

/-- Docker network isolation modes supported by the sandbox: `none` (no
network access, the secure default — the "isolated" mode of the spec) and
`bridge` (default Docker bridge networking — the "bridged" mode). -/
inductive SandboxNetworkMode where
  | none
  | bridge
deriving DecidableEq, Repr

/-- The string literal the mode stands for in the source. -/
def sandboxNetworkModeString : SandboxNetworkMode → String
  | .none => "none"
  | .bridge => "bridge"

/-- Resource limits applied to the sandbox container. -/
structure SandboxResourceLimits where
  memory : String
  cpus : Rat
  pidsLimit : Rat
deriving DecidableEq, Repr

/-- Host UID/GID mapping used for `docker run --user uid:gid`. -/
structure SandboxUserMapping where
  uid : Rat
  gid : Rat
deriving DecidableEq, Repr

/-- Volume mount mapping of the resolved configuration (`readOnly` has been
defaulted by resolution). -/
structure SandboxMount where
  hostPath : String
  containerPath : String
  readOnly : Bool
deriving DecidableEq, Repr

/-- `Partial<SandboxResourceLimits>`. -/
structure PartialSandboxResourceLimits where
  memory : Option String
  cpus : Option Rat
  pidsLimit : Option Rat
deriving DecidableEq, Repr

/-- `Partial<SandboxMount>`. -/
structure PartialSandboxMount where
  hostPath : Option String
  containerPath : Option String
  readOnly : Option Bool
deriving DecidableEq, Repr

/-- Configuration for running commands inside a Docker sandbox (the
caller-supplied input; optional fields are `Option`s). -/
structure SandboxConfig where
  enabled : Bool
  image : String
  network : Option SandboxNetworkMode
  resources : Option PartialSandboxResourceLimits
  user : Option SandboxUserMapping
  mount : Option PartialSandboxMount
  workdir : Option String
  env : Option (List (String × String))
  preflightTimeoutMs : Option Rat
  pullTimeoutMs : Option Rat
  containerNamePrefix : Option String
deriving DecidableEq, Repr

/-- Fully-resolved sandbox configuration with defaults applied (`enabled` is
the literal `true` in the source and is dropped here). -/
structure ResolvedSandboxConfig where
  image : String
  network : SandboxNetworkMode
  resources : SandboxResourceLimits
  user : SandboxUserMapping
  mount : SandboxMount
  workdir : String
  env : List (String × String)
  preflightTimeoutMs : Rat
  pullTimeoutMs : Rat
  containerNamePrefix : String
deriving DecidableEq, Repr

def DEFAULT_LIMITS : SandboxResourceLimits :=
  { memory := "512m", cpus := mkRat 1 2, pidsLimit := mkRat 50 1 }

def DEFAULT_CONTAINER_PATH : String := "/workspace"
def DEFAULT_PREFLIGHT_TIMEOUT_MS : Rat := mkRat 10000 1
def DEFAULT_PULL_TIMEOUT_MS : Rat := mkRat 300000 1
def DEFAULT_CONTAINER_NAME_PREFIX : String := "accomplish-sandbox"

/-- The host identity surface read by `getHostUserMapping`: `process.getuid`
and `process.getgid`, each absent on platforms that do not expose them. -/
structure HostIdentity where
  getuid : Option Rat
  getgid : Option Rat
deriving DecidableEq, Repr

/-- The `PlatformError` of a missing host identity surface. -/
def platformIdentityMessage : String :=
  "Sandbox UID/GID mapping is not available on this platform. Provide SandboxConfig.user explicitly to avoid running as root."

/-- The root-rejection error of the host-identity lookup. -/
def rootHostMessage : String :=
  "Refusing to run sandbox container as root (uid=0)."

/-- The root-rejection error of an explicit user mapping. -/
def rootMappingMessage : String :=
  "SandboxConfig.user uid/gid must be > 0 (containers must not run as root)"

def validateDockerImageName (image : String) : Except String Unit :=
  if image = "" then
    .error "SandboxConfig.image must be a non-empty string"
  else if image.data.any jsWhitespaceOrNul then
    .error "SandboxConfig.image must not contain whitespace or NUL characters"
  else .ok ()

/-- Returns the host UID/GID mapping using `process.getuid()` /
`process.getgid()`; throws when they are unavailable or the host user is
root. -/
def getHostUserMapping (host : HostIdentity) : Except String SandboxUserMapping :=
  match host.getuid, host.getgid with
  | some uid, some gid =>
    if uid = 0 then .error rootHostMessage
    else .ok { uid := uid, gid := gid }
  | _, _ => .error platformIdentityMessage

def validateUserMapping (user : SandboxUserMapping) : Except String Unit :=
  if ¬(jsNumberIsInteger user.uid ∧ jsNumberIsInteger user.gid) then
    .error "SandboxConfig.user uid/gid must be integers"
  else if user.uid ≤ 0 ∨ user.gid ≤ 0 then
    .error rootMappingMessage
  else .ok ()

def validateResourceLimits (limits : SandboxResourceLimits) : Except String Unit :=
  if limits.memory = "" then
    .error "Sandbox resource limit memory must be a non-empty string"
  else if limits.cpus ≤ 0 then
    .error "Sandbox resource limit cpus must be a positive number"
  else if ¬jsNumberIsInteger limits.pidsLimit ∨ limits.pidsLimit ≤ 0 then
    .error "Sandbox resource limit pidsLimit must be a positive integer"
  else .ok ()

/-- `[a-zA-Z0-9]` -/
def isNameHeadChar (c : Char) : Bool := c.isAlpha || c.isDigit

/-- `[a-zA-Z0-9_.-]` -/
def isNameTailChar (c : Char) : Bool := c.isAlpha || c.isDigit || c = '_' || c = '.' || c = '-'

def validateContainerNameHead (pfx : String) : Except String Unit :=
  if pfx = "" then
    .error "Sandbox containerNamePrefix must be a non-empty string"
  else
    match pfx.data with
    | [] => .error "Sandbox containerNamePrefix must be a non-empty string"
    | c :: rest =>
      if isNameHeadChar c ∧ rest.all isNameTailChar then .ok ()
      else .error "Sandbox containerNamePrefix contains invalid characters"

/-- `resolveSandboxConfig` of `config.ts`: validates the configuration and
applies the secure defaults, in the exact order of the source. `host` is the
ambient identity surface and `processCwd` the ambient working directory that
`path.resolve` consults for a relative mount host path. -/
def resolveSandboxConfig (host : HostIdentity) (processCwd : String)
    (config : SandboxConfig) : Except String ResolvedSandboxConfig :=
  if config.enabled = false then
    .error "resolveSandboxConfig called with sandbox disabled"
  else
  match validateDockerImageName config.image with
  | .error e => .error e
  | .ok _ =>
  match (match config.user with
         | some u => Except.ok u
         | Option.none => getHostUserMapping host) with
  | .error e => .error e
  | .ok user =>
  match validateUserMapping user with
  | .error e => .error e
  | .ok _ =>
  let resources : SandboxResourceLimits :=
    { memory := (config.resources.bind (fun r => r.memory)).getD DEFAULT_LIMITS.memory
      cpus := (config.resources.bind (fun r => r.cpus)).getD DEFAULT_LIMITS.cpus
      pidsLimit := (config.resources.bind (fun r => r.pidsLimit)).getD DEFAULT_LIMITS.pidsLimit }
  match validateResourceLimits resources with
  | .error e => .error e
  | .ok _ =>
  let network : SandboxNetworkMode := config.network.getD .none
  -- the source re-checks the two allowed literals here; with the typed model
  -- the check cannot fire, so it reduces to the success branch
  if ¬(network = .none) ∧ ¬(network = .bridge) then
    .error "Invalid sandbox network mode"
  else
  let namePfx := config.containerNamePrefix.getD DEFAULT_CONTAINER_NAME_PREFIX
  match validateContainerNameHead namePfx with
  | .error e => .error e
  | .ok _ =>
  let hostPath : String :=
    match config.mount.bind (fun m => m.hostPath) with
    | some p => if p = "" then "" else posixResolve processCwd p
    | Option.none => ""
  let containerPath := (config.mount.bind (fun m => m.containerPath)).getD DEFAULT_CONTAINER_PATH
  if ¬strStartsWithSlash containerPath then
    .error "Sandbox mount.containerPath must be an absolute container path (e.g. /workspace)"
  else
  let mount : SandboxMount :=
    { hostPath := hostPath
      containerPath := containerPath
      readOnly := (config.mount.bind (fun m => m.readOnly)).getD false }
  let workdir := config.workdir.getD containerPath
  if ¬strStartsWithSlash workdir then
    .error "Sandbox workdir must be an absolute container path (e.g. /workspace)"
  else
  .ok { image := config.image
        network := network
        resources := resources
        user := user
        mount := mount
        workdir := workdir
        env := config.env.getD []
        preflightTimeoutMs := config.preflightTimeoutMs.getD DEFAULT_PREFLIGHT_TIMEOUT_MS
        pullTimeoutMs := config.pullTimeoutMs.getD DEFAULT_PULL_TIMEOUT_MS
        containerNamePrefix := namePfx }

/-- `toContainerCommand`: a command that looks like a path (contains `/` or
a backslash) is reduced to its POSIX basename. -/
def toContainerCommand (command : String) : String :=
  if strContainsChar command '/' || strContainsChar command '\\' then
    posixBasename command
  else command

/-! ## utils.ts: lifecycle registry and signal handling

The registry state (`cleanupCallbacks`, `cleanupInProgress`) is module-level
mutable state in the source; the handlers close over one `ProcessLike`
target. Both are gathered into one explicit state record for the single
target the claims are about. A cleanup callback is an opaque effect; the
three forms below cover the callbacks of this program (an external
best-effort container removal), a callback that throws (the per-callback
failure boundary swallows the exception), and a callback that re-delivers
the interrupt signal to the target while the pass is running. Invoking a
callback appends it to `runLog`, the observable record of cleanup runs. -/

inductive Callback where
  | external (id : Nat)
  | throwing (id : Nat)
  | reRaise
deriving DecidableEq, Repr

/-- Combined state: the module-level registry plus one `ProcessLike` target.
`exitCode` is `process.exitCode` (`some` exactly when a number is set);
`hasKill` is whether `kill` and `pid` are both available on the target and
re-raising succeeds; `exited` records a `process.exit(code)` call;
`handlersInstalled` is membership of the target in the `registeredProcesses`
weak set. -/
structure SigState where
  cleanupCallbacks : List Callback
  cleanupInProgress : Bool
  exitCode : Option Int
  exitInstalled : Bool
  sigintInstalled : Bool
  sigtermInstalled : Bool
  hasKill : Bool
  exited : Option Int
  handlersInstalled : Bool
  runLog : List Callback
deriving DecidableEq, Repr

/-- `registerSandboxCleanupCallback`: `Set.add`. -/
def registerSandboxCleanupCallback (s : SigState) (c : Callback) : SigState :=
  if c ∈ s.cleanupCallbacks then s
  else { s with cleanupCallbacks := s.cleanupCallbacks ++ [c] }

/-- `unregisterSandboxCleanupCallback`: `Set.delete`. -/
def unregisterSandboxCleanupCallback (s : SigState) (c : Callback) : SigState :=
  { s with cleanupCallbacks := s.cleanupCallbacks.filter (fun x => x ≠ c) }

/-- The tail of `onSigint` after its `runCleanup()` call: set the exit code
to 130 unless a numeric code is already present, remove the SIGINT listener,
then re-raise the signal when `kill`/`pid` are available and fall back to
`process.exit(exitCode)` otherwise. -/
def sigintRest (s : SigState) : SigState :=
  let ec : Int := match s.exitCode with | some c => c | Option.none => 130
  let s1 := { s with exitCode := some ec, sigintInstalled := false }
  if s1.hasKill then s1
  else { s1 with exited := some ec }

/-- The tail of `onSigterm` after its `runCleanup()` call (exit code 143). -/
def sigtermRest (s : SigState) : SigState :=
  let ec : Int := match s.exitCode with | some c => c | Option.none => 143
  let s1 := { s with exitCode := some ec, sigtermInstalled := false }
  if s1.hasKill then s1
  else { s1 with exited := some ec }

/-- Invoking one snapshotted callback inside the `try`/`catch` of the pass.
A `reRaise` callback delivers SIGINT to the target while the pass is
running: the nested `onSigint` begins with a `runCleanup()` call, which
returns immediately because `cleanupInProgress` is true for the whole pass
(the guard; proved as `runCleanup_guard` below), so only the remainder of
the handler acts. An exception from `throwing` (and from a nested
`process.exit` on the test double) is swallowed by the `catch`, so the pass
continues in every branch. -/
def runCallbackStep (s : SigState) (c : Callback) : SigState :=
  match c with
  | .external _ => { s with runLog := s.runLog ++ [c] }
  | .throwing _ => { s with runLog := s.runLog ++ [c] }
  | .reRaise =>
    if s.sigintInstalled then sigintRest { s with runLog := s.runLog ++ [c] }
    else { s with runLog := s.runLog ++ [c] }

/-- `runCleanup` of `ensureSandboxProcessCleanupHandlers`: a no-op while a
pass is already in progress; otherwise sets the guard, runs a snapshot
(`Array.from`) of the registered callbacks in registration order, each in
its own failure boundary, and clears the guard. The callback set is not
modified by the pass. -/
def runCleanup (s : SigState) : SigState :=
  if s.cleanupInProgress then s
  else
    let s1 := { s with cleanupInProgress := true }
    let s2 := s1.cleanupCallbacks.foldl runCallbackStep s1
    { s2 with cleanupInProgress := false }

/-- The `onExit` handler: `runCleanup()` (the exit code argument is
ignored). -/
def onExitHandler (s : SigState) : SigState := runCleanup s

/-- The `onSigint` handler. -/
def onSigint (s : SigState) : SigState := sigintRest (runCleanup s)

/-- The `onSigterm` handler. -/
def onSigterm (s : SigState) : SigState := sigtermRest (runCleanup s)

/-- Delivering the `exit` event to the target: the installed `onExit`
listener runs, if present. -/
def emitExit (s : SigState) : SigState :=
  if s.exitInstalled then onExitHandler s else s

/-- Delivering SIGINT to the target. -/
def emitSigint (s : SigState) : SigState :=
  if s.sigintInstalled then onSigint s else s

/-- Delivering SIGTERM to the target. -/
def emitSigterm (s : SigState) : SigState :=
  if s.sigtermInstalled then onSigterm s else s

/-- `ensureSandboxProcessCleanupHandlers`: installs the three listeners,
idempotently per target (tracked by identity in `registeredProcesses`). -/
def ensureSandboxProcessCleanupHandlers (s : SigState) : SigState :=
  if s.handlersInstalled then s
  else { s with handlersInstalled := true, exitInstalled := true,
                sigintInstalled := true, sigtermInstalled := true }

/-- `createSandboxContainerName`: the random hex suffix produced by
`randomBytes(8).toString('hex')` is an explicit parameter. -/
def createSandboxContainerName (pfx sfx : String) : String :=
  pfx ++ "-" ++ sfx

/-! ## utils.ts: redaction -/

/-- The token the value at an `--env` value position is replaced with: the
part of the token before its first `=` (the whole token when it has none),
then `=<redacted>`. -/
def redactEnvToken (next : String) : String :=
  String.mk (next.data.takeWhile (fun c => c ≠ '=')) ++ "=<redacted>"

/-- `redactDockerArgsForLogging`, the index loop rendered as structural
recursion: a `--env` token is copied and the following token, when present,
is replaced by `redactEnvToken`; when `--env` is the final token the source
pushes it from both the marker branch and the fall-through push, hence
`[a, a]`. Every other token is copied. -/
def redactDockerArgsForLogging : List String → List String
  | [] => []
  | [a] => if a = "--env" then [a, a] else [a]
  | a :: next :: rest =>
    if a = "--env" then
      a :: redactEnvToken next :: redactDockerArgsForLogging rest
    else
      a :: redactDockerArgsForLogging (next :: rest)

/-! ## runner.ts -/

/-- Options for executing a command inside the Docker sandbox (`env` is
`NodeJS.ProcessEnv`, whose values may be `undefined`). -/
structure SandboxRunOptions where
  cwd : String
  command : String
  args : List String
  env : List (String × Option String)
deriving DecidableEq, Repr

/-- Docker CLI invocation spec used by the PTY adapter. The `cleanup`
closure removes `containerName`; it is identified here by that name. -/
structure DockerRunSpec where
  command : String
  args : List String
  containerName : String
  redactedArgs : List String
  cleanupOf : String
deriving DecidableEq, Repr

/-- Setting `obj[k] = v` on an insertion-ordered object: an existing key
keeps its position and takes the new value, a new key is appended. -/
def insertKey (m : List (String × String)) (k v : String) : List (String × String) :=
  if m.any (fun p => p.1 = k) then
    m.map (fun p => if p.1 = k then (k, v) else p)
  else m ++ [(k, v)]

/-- `Object.fromEntries`. -/
def objectFromEntries (l : List (String × String)) : List (String × String) :=
  l.foldl (fun acc p => insertKey acc p.1 p.2) []

/-- Object spread `\x7b ...base, ...overrides \x7d`. -/
def objectSpreadMerge (base overrides : List (String × String)) : List (String × String) :=
  overrides.foldl (fun acc p => insertKey acc p.1 p.2) base

/-- The merged environment of `buildDockerRunSpec`: the entries of
`options.env` whose values are strings, spread first, then `sandbox.env`
(sandbox values take precedence on key collision). -/
def mergedEnvOf (optionsEnv : List (String × Option String))
    (sandboxEnv : List (String × String)) : List (String × String) :=
  objectSpreadMerge
    (objectFromEntries (optionsEnv.filterMap (fun p => p.2.map (fun v => (p.1, v)))))
    sandboxEnv

/-- The guard of the env loop: an entry is skipped when its key is empty
(`!key`), contains `=`, or contains a NUL byte. -/
def isValidEnvKey (key : String) : Bool :=
  ¬(key = "" || strContainsChar key '=' || strContainsChar key '\x00')

/-- The tokens one merged entry contributes: `--env key=value`, or nothing
when the key is skipped. -/
def envFlag (kv : String × String) : List String :=
  if isValidEnvKey kv.1 then ["--env", kv.1 ++ "=" ++ kv.2] else []

/-- `buildDockerRunSpec` of `runner.ts`: pure except for the fresh random
container-name suffix, which is the explicit `sfx` parameter; `processCwd`
is the ambient working directory `path.resolve` consults. The cleanup
registration side effect is `registerSandboxCleanupCallback` on the
registry state and is modelled at the call site. -/
def buildDockerRunSpec (processCwd : String) (sandbox : ResolvedSandboxConfig)
    (options : SandboxRunOptions) (sfx : String) : DockerRunSpec :=
  let containerName := createSandboxContainerName sandbox.containerNamePrefix sfx
  let mountHostPath := posixResolve processCwd options.cwd
  let mountContainerPath := sandbox.mount.containerPath
  let mountMode := if sandbox.mount.readOnly then ":ro" else ":rw"
  let volumeArg := mountHostPath ++ ":" ++ mountContainerPath ++ mountMode
  let baseArgs : List String :=
    ["run", "--rm",
     "--name", containerName,
     "--user", jsNumberToString sandbox.user.uid ++ ":" ++ jsNumberToString sandbox.user.gid,
     "--memory", sandbox.resources.memory,
     "--cpus", jsNumberToString sandbox.resources.cpus,
     "--pids-limit", jsNumberToString sandbox.resources.pidsLimit,
     "--network", sandboxNetworkModeString sandbox.network,
     "--volume", volumeArg,
     "--workdir", sandbox.workdir]
  let merged := mergedEnvOf options.env sandbox.env
  let withEnv := merged.foldl (fun acc kv => acc ++ envFlag kv) baseArgs
  let containerCommand := toContainerCommand options.command
  let dockerArgs := withEnv ++ sandbox.image :: containerCommand :: options.args
  { command := "docker"
    args := dockerArgs
    containerName := containerName
    redactedArgs := redactDockerArgsForLogging dockerArgs
    cleanupOf := containerName }

/-! ## Lemmas: the cleanup pass -/

lemma sigintRest_spec (s : SigState) :
    (sigintRest s).runLog = s.runLog ∧
    (sigintRest s).cleanupCallbacks = s.cleanupCallbacks ∧
    (sigintRest s).cleanupInProgress = s.cleanupInProgress ∧
    (sigintRest s).sigintInstalled = false ∧
    (sigintRest s).exitCode = some (s.exitCode.getD 130) := by
  unfold sigintRest
  cases h : s.exitCode <;> cases hk : s.hasKill <;> simp [h, hk]

lemma runCallbackStep_spec (s : SigState) (c : Callback) :
    (runCallbackStep s c).runLog = s.runLog ++ [c] ∧
    (runCallbackStep s c).cleanupCallbacks = s.cleanupCallbacks ∧
    (runCallbackStep s c).cleanupInProgress = s.cleanupInProgress ∧
    ((runCallbackStep s c).exitCode = s.exitCode ∨
      (s.exitCode = Option.none ∧ (runCallbackStep s c).exitCode = some 130)) := by
  cases c with
  | external id => exact ⟨rfl, rfl, rfl, Or.inl rfl⟩
  | throwing id => exact ⟨rfl, rfl, rfl, Or.inl rfl⟩
  | reRaise =>
    by_cases h : s.sigintInstalled = true
    · have hs := sigintRest_spec { s with runLog := s.runLog ++ [Callback.reRaise] }
      unfold runCallbackStep
      rw [if_pos h]
      refine ⟨?_, ?_, ?_, ?_⟩
      · rw [hs.1]
      · rw [hs.2.1]
      · rw [hs.2.2.1]
      · rw [hs.2.2.2.2]
        rcases h' : s.exitCode with _ | c
        · exact Or.inr ⟨rfl, rfl⟩
        · exact Or.inl rfl
    · unfold runCallbackStep
      rw [if_neg h]
      exact ⟨rfl, rfl, rfl, Or.inl rfl⟩

lemma foldl_runCallbackStep_spec (cbs : List Callback) (s : SigState) :
    (cbs.foldl runCallbackStep s).runLog = s.runLog ++ cbs ∧
    (cbs.foldl runCallbackStep s).cleanupCallbacks = s.cleanupCallbacks ∧
    (cbs.foldl runCallbackStep s).cleanupInProgress = s.cleanupInProgress ∧
    ((cbs.foldl runCallbackStep s).exitCode = s.exitCode ∨
      (s.exitCode = Option.none ∧ (cbs.foldl runCallbackStep s).exitCode = some 130)) := by
  induction cbs generalizing s with
  | nil => exact ⟨by simp, rfl, rfl, Or.inl rfl⟩
  | cons c rest ih =>
    have hstep := runCallbackStep_spec s c
    have hrest := ih (runCallbackStep s c)
    refine ⟨?_, ?_, ?_, ?_⟩
    · simp only [List.foldl_cons]
      rw [hrest.1, hstep.1, List.append_assoc]
      rfl
    · simp only [List.foldl_cons]
      rw [hrest.2.1, hstep.2.1]
    · simp only [List.foldl_cons]
      rw [hrest.2.2.1, hstep.2.2.1]
    · simp only [List.foldl_cons]
      rcases hrest.2.2.2 with h | ⟨hn, h⟩
      · rw [h]
        rcases hstep.2.2.2 with h2 | ⟨hn2, h2⟩
        · exact Or.inl h2
        · exact Or.inr ⟨hn2, h2⟩
      · rcases hstep.2.2.2 with h2 | ⟨hn2, h2⟩
        · rw [h2] at hn
          exact Or.inr ⟨hn, h⟩
        · exact Or.inr ⟨hn2, h⟩

/-- The in-progress guard: a cleanup pass that is already running makes a
nested trigger's `runCleanup` a no-op. -/
lemma runCleanup_guard (t : SigState) (h : t.cleanupInProgress = true) :
    runCleanup t = t := by
  unfold runCleanup
  simp [h]

lemma runCleanup_spec (s : SigState) (hpass : s.cleanupInProgress = false) :
    (runCleanup s).runLog = s.runLog ++ s.cleanupCallbacks ∧
    (runCleanup s).cleanupCallbacks = s.cleanupCallbacks ∧
    (runCleanup s).cleanupInProgress = false ∧
    ((runCleanup s).exitCode = s.exitCode ∨
      (s.exitCode = Option.none ∧ (runCleanup s).exitCode = some 130)) := by
  have hf := foldl_runCallbackStep_spec s.cleanupCallbacks { s with cleanupInProgress := true }
  unfold runCleanup
  rw [if_neg (by simp [hpass])]
  exact ⟨hf.1, hf.2.1, rfl, hf.2.2.2⟩

lemma emitSigint_spec (s : SigState) (hin : s.sigintInstalled = true)
    (hpass : s.cleanupInProgress = false) :
    (emitSigint s).runLog = s.runLog ++ s.cleanupCallbacks ∧
    (emitSigint s).exitCode = some (s.exitCode.getD 130) ∧
    (emitSigint s).sigintInstalled = false := by
  have hr := runCleanup_spec s hpass
  have hs := sigintRest_spec (runCleanup s)
  unfold emitSigint onSigint
  rw [if_pos hin]
  refine ⟨?_, ?_, hs.2.2.2.1⟩
  · rw [hs.1, hr.1]
  · rw [hs.2.2.2.2]
    rcases hr.2.2.2 with h | ⟨hn, h⟩
    · rw [h]
    · rw [h, hn]
      rfl

lemma emitSigint_not_installed (s : SigState) (h : s.sigintInstalled = false) :
    emitSigint s = s := by
  unfold emitSigint
  rw [if_neg (by simp [h])]

/-- A second SIGINT delivery is a no-op: the first one removed the SIGINT
listener. -/
lemma emitSigint_idem (s : SigState) :
    emitSigint (emitSigint s) = emitSigint s := by
  by_cases h : s.sigintInstalled = true
  · have hoff : (emitSigint s).sigintInstalled = false := by
      unfold emitSigint onSigint
      rw [if_pos h]
      exact (sigintRest_spec _).2.2.2.1
    exact emitSigint_not_installed _ hoff
  · have hf : s.sigintInstalled = false := by
      revert h; cases s.sigintInstalled <;> simp
    simp only [emitSigint_not_installed s hf]

/-- A registry/target state used by the concrete scenarios: one registered
external cleanup action, fresh handlers, no exit code set, `kill`
available. -/
def demoRegistryState : SigState :=
  { cleanupCallbacks := [Callback.external 0]
    cleanupInProgress := false
    exitCode := Option.none
    exitInstalled := true
    sigintInstalled := true
    sigtermInstalled := true
    hasKill := true
    exited := Option.none
    handlersInstalled := true
    runLog := [] }

/-- A state with one external action, one throwing action and one action
that re-delivers SIGINT during the pass. -/
def demoRegistryStateMixed : SigState :=
  { demoRegistryState with
    cleanupCallbacks := [Callback.external 0, Callback.throwing 1, Callback.reRaise] }

/-- C1, counterexample. The registry is NOT cleared of an action once a pass
has run it: after a SIGINT-triggered pass, the exit event that follows (as
on a real process, where the handler then exits or re-raises) runs the same
registered action a second time, so its run count reaches 2. -/
theorem c1_counterexample_action_runs_twice :
    ((emitExit (emitSigint demoRegistryState)).runLog.count (Callback.external 0)) = 2 := by
  decide

/-- C1, amended. Within one cleanup pass every registered action runs
exactly once (the pass snapshots the registry, and the in-progress guard
makes a nested trigger's pass a no-op), but the pass leaves the registry
unchanged — it is not cleared — so a later distinct trigger runs the
actions again. -/
theorem c1_amended_pass_runs_each_action_once_registry_kept (s : SigState)
    (hpass : s.cleanupInProgress = false) (hnd : s.cleanupCallbacks.Nodup) :
    (runCleanup s).runLog = s.runLog ++ s.cleanupCallbacks ∧
    (∀ c ∈ s.cleanupCallbacks,
      ((runCleanup s).runLog.drop s.runLog.length).count c = 1) ∧
    (runCleanup s).cleanupCallbacks = s.cleanupCallbacks ∧
    (∀ t : SigState, t.cleanupInProgress = true → runCleanup t = t) := by
  have hr := runCleanup_spec s hpass
  refine ⟨hr.1, ?_, hr.2.1, runCleanup_guard⟩
  intro c hc
  rw [hr.1, List.drop_left]
  exact List.count_eq_one_of_mem hnd hc

/-- Witness for the amended C1 at the concrete one-action state. -/
theorem c1_amended_witness :
    (runCleanup demoRegistryState).runLog
        = demoRegistryState.runLog ++ demoRegistryState.cleanupCallbacks ∧
    (∀ c ∈ demoRegistryState.cleanupCallbacks,
      ((runCleanup demoRegistryState).runLog.drop demoRegistryState.runLog.length).count c = 1) ∧
    (runCleanup demoRegistryState).cleanupCallbacks = demoRegistryState.cleanupCallbacks ∧
    (∀ t : SigState, t.cleanupInProgress = true → runCleanup t = t) :=
  c1_amended_pass_runs_each_action_once_registry_kept demoRegistryState rfl (by decide)

/-- C2. Delivering SIGINT to a target with handlers installed (and no pass
in progress) runs every currently registered cleanup action exactly once,
and sets the exit code to 130 exactly when no numeric exit code was already
set (an already-set code is left unchanged). -/
theorem c2_sigint_runs_actions_once_sets_exit_code (s : SigState)
    (hin : s.sigintInstalled = true) (hpass : s.cleanupInProgress = false)
    (hnd : s.cleanupCallbacks.Nodup) :
    (emitSigint s).runLog = s.runLog ++ s.cleanupCallbacks ∧
    (∀ c ∈ s.cleanupCallbacks,
      ((emitSigint s).runLog.drop s.runLog.length).count c = 1) ∧
    (emitSigint s).exitCode = some (s.exitCode.getD 130) := by
  have he := emitSigint_spec s hin hpass
  refine ⟨he.1, ?_, he.2.1⟩
  intro c hc
  rw [he.1, List.drop_left]
  exact List.count_eq_one_of_mem hnd hc

/-- Witness for C2 at the mixed three-action state. -/
theorem c2_witness :
    (emitSigint demoRegistryStateMixed).runLog
        = demoRegistryStateMixed.runLog ++ demoRegistryStateMixed.cleanupCallbacks ∧
    (∀ c ∈ demoRegistryStateMixed.cleanupCallbacks,
      ((emitSigint demoRegistryStateMixed).runLog.drop
          demoRegistryStateMixed.runLog.length).count c = 1) ∧
    (emitSigint demoRegistryStateMixed).exitCode
        = some (demoRegistryStateMixed.exitCode.getD 130) :=
  c2_sigint_runs_actions_once_sets_exit_code demoRegistryStateMixed rfl rfl (by decide)

/-- C3. Delivering SIGINT twice in succession runs the registered cleanup
actions only once in total (the second delivery finds the listener removed
and the whole state unchanged), and a re-entrant trigger arriving while a
pass is in progress is ignored rather than queued: `runCleanup` under the
in-progress flag is the identity. -/
theorem c3_double_sigint_runs_cleanup_once (s : SigState)
    (hin : s.sigintInstalled = true) (hpass : s.cleanupInProgress = false) :
    (emitSigint (emitSigint s)).runLog = s.runLog ++ s.cleanupCallbacks ∧
    emitSigint (emitSigint s) = emitSigint s ∧
    (∀ t : SigState, t.cleanupInProgress = true → runCleanup t = t) := by
  have he := emitSigint_spec s hin hpass
  refine ⟨?_, emitSigint_idem s, runCleanup_guard⟩
  rw [emitSigint_idem s, he.1]

/-- Witness for C3 at the mixed state (whose `reRaise` action re-delivers
SIGINT during the pass itself). -/
theorem c3_witness :
    (emitSigint (emitSigint demoRegistryStateMixed)).runLog
        = demoRegistryStateMixed.runLog ++ demoRegistryStateMixed.cleanupCallbacks ∧
    emitSigint (emitSigint demoRegistryStateMixed) = emitSigint demoRegistryStateMixed ∧
    (∀ t : SigState, t.cleanupInProgress = true → runCleanup t = t) :=
  c3_double_sigint_runs_cleanup_once demoRegistryStateMixed rfl rfl

/-! ## Lemmas: the built argument vector -/

lemma foldl_append_flatMap {α β : Type} (g : α → List β) :
    ∀ (l : List α) (acc : List β),
      l.foldl (fun a x => a ++ g x) acc = acc ++ l.flatMap g
  | [], acc => by simp
  | x :: rest, acc => by
    simp only [List.foldl_cons, List.flatMap_cons]
    rw [foldl_append_flatMap g rest (acc ++ g x), List.append_assoc]

/-- The cons-normal form of the vector `buildDockerRunSpec` constructs. -/
lemma buildDockerRunSpec_args_eq (pc : String) (r : ResolvedSandboxConfig)
    (o : SandboxRunOptions) (sfx : String) :
    (buildDockerRunSpec pc r o sfx).args =
      "run" :: "--rm" :: "--name" :: createSandboxContainerName r.containerNamePrefix sfx ::
      "--user" :: (jsNumberToString r.user.uid ++ ":" ++ jsNumberToString r.user.gid) ::
      "--memory" :: r.resources.memory ::
      "--cpus" :: jsNumberToString r.resources.cpus ::
      "--pids-limit" :: jsNumberToString r.resources.pidsLimit ::
      "--network" :: sandboxNetworkModeString r.network ::
      "--volume" :: (posixResolve pc o.cwd ++ ":" ++ r.mount.containerPath ++
          (if r.mount.readOnly then ":ro" else ":rw")) ::
      "--workdir" :: r.workdir ::
      ((mergedEnvOf o.env r.env).flatMap envFlag ++
        r.image :: toContainerCommand o.command :: o.args) := by
  simp only [buildDockerRunSpec]
  rw [foldl_append_flatMap envFlag]
  simp [List.append_assoc]

lemma flatMap_envFlag_filter :
    ∀ l : List (String × String),
      l.flatMap envFlag = (l.filter (fun kv => isValidEnvKey kv.1)).flatMap envFlag
  | [] => rfl
  | kv :: rest => by
    by_cases h : isValidEnvKey kv.1
    · simp only [List.flatMap_cons, List.filter_cons, h, if_pos]
      rw [flatMap_envFlag_filter rest]
    · simp only [List.flatMap_cons, List.filter_cons, h]
      simp only [envFlag, h, if_false, Bool.false_eq_true, List.nil_append]
      exact flatMap_envFlag_filter rest

/-- The eighteen fixed tokens preceding the environment flags. -/
def dockerRunArgsBase (pc : String) (r : ResolvedSandboxConfig)
    (o : SandboxRunOptions) (sfx : String) : List String :=
  ["run", "--rm",
   "--name", createSandboxContainerName r.containerNamePrefix sfx,
   "--user", jsNumberToString r.user.uid ++ ":" ++ jsNumberToString r.user.gid,
   "--memory", r.resources.memory,
   "--cpus", jsNumberToString r.resources.cpus,
   "--pids-limit", jsNumberToString r.resources.pidsLimit,
   "--network", sandboxNetworkModeString r.network,
   "--volume", posixResolve pc o.cwd ++ ":" ++ r.mount.containerPath ++
       (if r.mount.readOnly then ":ro" else ":rw"),
   "--workdir", r.workdir]

/-- C4. The built vector lists, in this exact order: the remove-on-exit
flag, the generated name, the user mapping as `uid:gid`, the memory limit,
the CPU share, the process-count limit, the network mode, the single volume
mount (host working directory resolved to an absolute path, bound to the
configured container path, with the read-only or read-write suffix per
configuration), the working-directory flag, one `--env` flag per merged
environment entry (skipped entries contributing none), the image reference,
the container-side command name, and the argument list verbatim. -/
theorem c4_arg_vector_exact_order (pc : String) (r : ResolvedSandboxConfig)
    (o : SandboxRunOptions) (sfx : String) :
    (buildDockerRunSpec pc r o sfx).args =
      ["run"] ++ ["--rm"] ++
      ["--name", createSandboxContainerName r.containerNamePrefix sfx] ++
      ["--user", jsNumberToString r.user.uid ++ ":" ++ jsNumberToString r.user.gid] ++
      ["--memory", r.resources.memory] ++
      ["--cpus", jsNumberToString r.resources.cpus] ++
      ["--pids-limit", jsNumberToString r.resources.pidsLimit] ++
      ["--network", sandboxNetworkModeString r.network] ++
      ["--volume", posixResolve pc o.cwd ++ ":" ++ r.mount.containerPath ++
          (if r.mount.readOnly then ":ro" else ":rw")] ++
      ["--workdir", r.workdir] ++
      (mergedEnvOf o.env r.env).flatMap envFlag ++
      [r.image] ++ [toContainerCommand o.command] ++ o.args := by
  rw [buildDockerRunSpec_args_eq]
  simp [List.append_assoc]

/-- C6. The environment section of the built vector is exactly the flags of
the valid merged entries: an entry whose key is empty, contains `=` or
contains a NUL byte contributes no tokens at all (second conjunct), so it
never appears as an `--env` flag in the vector (first conjunct). -/
theorem c6_invalid_env_keys_never_emitted (pc : String) (r : ResolvedSandboxConfig)
    (o : SandboxRunOptions) (sfx : String) :
    ((buildDockerRunSpec pc r o sfx).args =
      dockerRunArgsBase pc r o sfx ++
        ((mergedEnvOf o.env r.env).filter (fun kv => isValidEnvKey kv.1)).flatMap envFlag ++
        r.image :: toContainerCommand o.command :: o.args) ∧
    (∀ k v : String, isValidEnvKey k = false → envFlag (k, v) = []) := by
  constructor
  · rw [buildDockerRunSpec_args_eq, flatMap_envFlag_filter]
    simp [dockerRunArgsBase, List.append_assoc]
  · intro k v h
    simp [envFlag, h]

/-- C8. Building twice from the same resolved configuration, options and
ambient working directory yields vectors identical except for the generated
container name at position 3: the three tokens before it agree, everything
after it agrees, and position 3 holds the respective generated names. -/
theorem c8_build_deterministic_except_name (pc : String) (r : ResolvedSandboxConfig)
    (o : SandboxRunOptions) (s1 s2 : String) :
    (buildDockerRunSpec pc r o s1).args.take 3 = (buildDockerRunSpec pc r o s2).args.take 3 ∧
    (buildDockerRunSpec pc r o s1).args.drop 4 = (buildDockerRunSpec pc r o s2).args.drop 4 ∧
    (buildDockerRunSpec pc r o s1).args.get? 3
        = some (createSandboxContainerName r.containerNamePrefix s1) ∧
    (buildDockerRunSpec pc r o s2).args.get? 3
        = some (createSandboxContainerName r.containerNamePrefix s2) ∧
    (buildDockerRunSpec pc r o s1).command = (buildDockerRunSpec pc r o s2).command := by
  refine ⟨?_, ?_, ?_, ?_, rfl⟩ <;>
    rw [buildDockerRunSpec_args_eq] <;> try rw [buildDockerRunSpec_args_eq]
  all_goals rfl

/-- C10. The host side of the volume mount comes only from the run options:
overwriting the resolved configuration's `mount.hostPath` field with any
value leaves the entire built spec unchanged, and the volume token is the
resolution of `options.cwd` bound to the configured container path. -/
theorem c10_mount_host_path_field_has_no_effect (pc : String) (r : ResolvedSandboxConfig)
    (o : SandboxRunOptions) (sfx : String) (hp : String) :
    buildDockerRunSpec pc { r with mount := { r.mount with hostPath := hp } } o sfx
      = buildDockerRunSpec pc r o sfx ∧
    (buildDockerRunSpec pc r o sfx).args.get? 15
      = some (posixResolve pc o.cwd ++ ":" ++ r.mount.containerPath ++
          (if r.mount.readOnly then ":ro" else ":rw")) := by
  constructor
  · rfl
  · rw [buildDockerRunSpec_args_eq]
    rfl

/-! ## Lemmas: redaction -/

lemma data_mk_append (l : List Char) (s : String) :
    (String.mk l ++ s).data = l ++ s.data := by
  cases s
  rfl

lemma takeWhile_append_of_all {p : Char → Bool} :
    ∀ (l₁ l₂ : List Char), (∀ c ∈ l₁, p c = true) →
      (l₁ ++ l₂).takeWhile p = l₁ ++ l₂.takeWhile p
  | [], l₂, _ => by simp
  | c :: cs, l₂, h => by
    have hc : p c = true := h c (List.mem_cons_self c cs)
    simp [List.takeWhile_cons, hc,
      takeWhile_append_of_all cs l₂ (fun x hx => h x (List.mem_cons_of_mem c hx))]

/-- Redacting an already-redacted value token changes nothing: its key part
contains no `=`. -/
lemma redactEnvToken_fixed (t : String) :
    redactEnvToken (redactEnvToken t) = redactEnvToken t := by
  unfold redactEnvToken
  rw [data_mk_append,
    takeWhile_append_of_all _ _ (fun c hc => List.mem_takeWhile_imp hc)]
  have he : "=<redacted>".data.takeWhile (fun c => c ≠ '=') = [] := rfl
  rw [he, List.append_nil]

lemma redact_ne_nil (a : String) (l : List String) :
    redactDockerArgsForLogging (a :: l) ≠ [] := by
  cases l <;> by_cases h : a = "--env" <;> simp [redactDockerArgsForLogging, h]

lemma redact_get_zero (v : List String) :
    (redactDockerArgsForLogging v).get? 0 = v.get? 0 := by
  cases v with
  | nil => rfl
  | cons a rest =>
    cases rest with
    | nil => by_cases h : a = "--env" <;> simp [redactDockerArgsForLogging, h]
    | cons b bs => by_cases h : a = "--env" <;> simp [redactDockerArgsForLogging, h]

theorem redact_len : ∀ v : List String, v.getLast? ≠ some "--env" →
    (redactDockerArgsForLogging v).length = v.length
  | [], _ => rfl
  | [a], h => by
    have ha : a ≠ "--env" := fun e => h (by simp [e])
    simp [redactDockerArgsForLogging, ha]
  | a :: next :: rest, h => by
    have h' : (next :: rest).getLast? ≠ some "--env" := by
      rwa [List.getLast?_cons_cons] at h
    by_cases ha : a = "--env"
    · cases rest with
      | nil => simp [redactDockerArgsForLogging, ha]
      | cons b bs =>
        have h'' : (b :: bs).getLast? ≠ some "--env" := by
          rwa [List.getLast?_cons_cons] at h'
        simp [redactDockerArgsForLogging, ha, redact_len (b :: bs) h'']
    · simp [redactDockerArgsForLogging, ha, redact_len (next :: rest) h']

/-- The positions of the value tokens of the redaction scan: the position
after each `--env` token the scan treats as a marker (a `--env` that the
scan consumed as a value is not a marker). Mirrors the recursion of
`redactDockerArgsForLogging`. -/
def envValuePositions : List String → List Nat
  | [] => []
  | [_] => []
  | a :: next :: rest =>
    if a = "--env" then 1 :: (envValuePositions rest).map (fun j => j + 2)
    else (envValuePositions (next :: rest)).map (fun j => j + 1)

lemma envValuePositions_ge_one : ∀ (v : List String) (j : Nat),
    j ∈ envValuePositions v → 1 ≤ j
  | [], j, hj => absurd hj (by simp [envValuePositions])
  | [a], j, hj => absurd hj (by simp [envValuePositions])
  | a :: next :: rest, j, hj => by
    by_cases ha : a = "--env"
    · rw [show envValuePositions (a :: next :: rest)
          = 1 :: (envValuePositions rest).map (fun j => j + 2) by
        simp [envValuePositions, ha]] at hj
      rcases List.mem_cons.mp hj with h1 | h2
      · omega
      · obtain ⟨k, _, rfl⟩ := List.mem_map.mp h2
        omega
    · rw [show envValuePositions (a :: next :: rest)
          = (envValuePositions (next :: rest)).map (fun j => j + 1) by
        simp [envValuePositions, ha]] at hj
      obtain ⟨k, _, rfl⟩ := List.mem_map.mp hj
      omega

/-- At every value position the redacted vector holds exactly the redaction
of the original token (its key part followed by the placeholder), the
preceding token is the `--env` marker, and the token exists. -/
theorem redact_at_value_positions : ∀ v : List String, v.getLast? ≠ some "--env" →
    ∀ j ∈ envValuePositions v,
      v.get? (j - 1) = some "--env" ∧
      (redactDockerArgsForLogging v).get? j = (v.get? j).map redactEnvToken ∧
      (v.get? j).isSome = true
  | [], _, j, hj => absurd hj (by simp [envValuePositions])
  | [a], _, j, hj => absurd hj (by simp [envValuePositions])
  | a :: next :: rest, h, j, hj => by
    have h' : (next :: rest).getLast? ≠ some "--env" := by
      rwa [List.getLast?_cons_cons] at h
    by_cases ha : a = "--env"
    · rw [show envValuePositions (a :: next :: rest)
          = 1 :: (envValuePositions rest).map (fun j => j + 2) by
        simp [envValuePositions, ha]] at hj
      have hr : redactDockerArgsForLogging (a :: next :: rest)
          = a :: redactEnvToken next :: redactDockerArgsForLogging rest := by
        simp [redactDockerArgsForLogging, ha]
      rcases List.mem_cons.mp hj with h1 | h2
      · subst h1
        subst ha
        exact ⟨rfl, by simp [hr], rfl⟩
      · obtain ⟨k, hk, rfl⟩ := List.mem_map.mp h2
        have hk1 : 1 ≤ k := envValuePositions_ge_one rest k hk
        obtain ⟨k', rfl⟩ : ∃ k', k = k' + 1 := ⟨k - 1, by omega⟩
        cases rest with
        | nil => exact absurd hk (by simp [envValuePositions])
        | cons b bs =>
          have h'' : (b :: bs).getLast? ≠ some "--env" := by
            rwa [List.getLast?_cons_cons] at h'
          have IH := redact_at_value_positions (b :: bs) h'' (k' + 1) hk
          refine ⟨?_, ?_, ?_⟩
          · show (a :: next :: b :: bs).get? (k' + 1 + 2 - 1) = some "--env"
            have : k' + 1 + 2 - 1 = (k' + 1 - 1) + 1 + 1 := by omega
            rw [this]
            simpa using IH.1
          · show (redactDockerArgsForLogging (a :: next :: b :: bs)).get? (k' + 1 + 2) = _
            rw [hr]
            have : k' + 1 + 2 = (k' + 1) + 1 + 1 := by omega
            rw [this]
            simpa using IH.2.1
          · have : k' + 1 + 2 = (k' + 1) + 1 + 1 := by omega
            rw [this]
            simpa using IH.2.2
    · rw [show envValuePositions (a :: next :: rest)
          = (envValuePositions (next :: rest)).map (fun j => j + 1) by
        simp [envValuePositions, ha]] at hj
      obtain ⟨k, hk, rfl⟩ := List.mem_map.mp hj
      have hk1 : 1 ≤ k := envValuePositions_ge_one (next :: rest) k hk
      obtain ⟨k2, rfl⟩ : ∃ k2, k = k2 + 1 := ⟨k - 1, by omega⟩
      have hr : redactDockerArgsForLogging (a :: next :: rest)
          = a :: redactDockerArgsForLogging (next :: rest) := by
        simp [redactDockerArgsForLogging, ha]
      have IH := redact_at_value_positions (next :: rest) h' (k2 + 1) hk
      refine ⟨?_, ?_, ?_⟩
      · show (a :: next :: rest).get? (k2 + 1 + 1 - 1) = some "--env"
        have : k2 + 1 + 1 - 1 = k2 + 1 := by omega
        rw [this]
        simpa using IH.1
      · rw [hr]
        simpa using IH.2.1
      · simpa using IH.2.2

/-- Away from the value positions the redacted vector agrees with the
original: every other token is unchanged. -/
theorem redact_off_value_positions : ∀ v : List String, v.getLast? ≠ some "--env" →
    ∀ j : Nat, j ∉ envValuePositions v →
      (redactDockerArgsForLogging v).get? j = v.get? j
  | [], _, _, _ => rfl
  | [a], h, j, _ => by
    have ha : a ≠ "--env" := fun e => h (by simp [e])
    simp [redactDockerArgsForLogging, ha]
  | a :: next :: rest, h, j, hj => by
    have h' : (next :: rest).getLast? ≠ some "--env" := by
      rwa [List.getLast?_cons_cons] at h
    by_cases ha : a = "--env"
    · have hEq : envValuePositions (a :: next :: rest)
          = 1 :: (envValuePositions rest).map (fun j => j + 2) := by
        simp [envValuePositions, ha]
      have hr : redactDockerArgsForLogging (a :: next :: rest)
          = a :: redactEnvToken next :: redactDockerArgsForLogging rest := by
        simp [redactDockerArgsForLogging, ha]
      match j with
      | 0 => simp [hr]
      | 1 =>
        exact absurd (by rw [hEq]; exact List.mem_cons_self 1 _) hj
      | (k + 2) =>
        cases rest with
        | nil => rw [hr]; simp [redactDockerArgsForLogging]
        | cons b bs =>
          have h'' : (b :: bs).getLast? ≠ some "--env" := by
            rwa [List.getLast?_cons_cons] at h'
          have hsub : k ∉ envValuePositions (b :: bs) := by
            intro hk
            exact hj (by
              rw [hEq]
              exact List.mem_cons_of_mem _ (List.mem_map.mpr ⟨k, hk, rfl⟩))
          have IH := redact_off_value_positions (b :: bs) h'' k hsub
          rw [hr]
          simpa using IH
    · have hEq : envValuePositions (a :: next :: rest)
          = (envValuePositions (next :: rest)).map (fun j => j + 1) := by
        simp [envValuePositions, ha]
      have hr : redactDockerArgsForLogging (a :: next :: rest)
          = a :: redactDockerArgsForLogging (next :: rest) := by
        simp [redactDockerArgsForLogging, ha]
      match j with
      | 0 => simp [hr]
      | (k + 1) =>
        have hsub : k ∉ envValuePositions (next :: rest) := by
          intro hk
          exact hj (by
            rw [hEq]
            exact List.mem_map.mpr ⟨k, hk, rfl⟩)
        have IH := redact_off_value_positions (next :: rest) h' k hsub
        rw [hr]
        simpa using IH

/-- Every occurrence of the `--env` token in the vector is accounted for:
either it is itself at a value position (the scan consumed it as a value),
or the following position is a value position (the scan treated it as a
marker and redacts its successor). -/
theorem marker_has_value_position : ∀ v : List String, v.getLast? ≠ some "--env" →
    ∀ i : Nat, v.get? i = some "--env" →
      i ∈ envValuePositions v ∨ (i + 1) ∈ envValuePositions v
  | [], _, i, hi => absurd hi (by simp)
  | [a], h, i, hi => by
    have ha : a ≠ "--env" := fun e => h (by simp [e])
    match i with
    | 0 => exact absurd hi (by simp [ha])
    | (k + 1) => exact absurd hi (by simp)
  | a :: next :: rest, h, i, hi => by
    have h' : (next :: rest).getLast? ≠ some "--env" := by
      rwa [List.getLast?_cons_cons] at h
    by_cases ha : a = "--env"
    · have hEq : envValuePositions (a :: next :: rest)
          = 1 :: (envValuePositions rest).map (fun j => j + 2) := by
        simp [envValuePositions, ha]
      match i with
      | 0 =>
        right
        rw [hEq]
        exact List.mem_cons_self 1 _
      | 1 =>
        left
        rw [hEq]
        exact List.mem_cons_self 1 _
      | (k + 2) =>
        cases rest with
        | nil => exact absurd hi (by simp)
        | cons b bs =>
          have h'' : (b :: bs).getLast? ≠ some "--env" := by
            rwa [List.getLast?_cons_cons] at h'
          have hi' : (b :: bs).get? k = some "--env" := by simpa using hi
          rcases marker_has_value_position (b :: bs) h'' k hi' with hL | hR
          · left
            rw [hEq]
            exact List.mem_cons_of_mem _ (List.mem_map.mpr ⟨k, hL, rfl⟩)
          · right
            rw [hEq]
            refine List.mem_cons_of_mem _ (List.mem_map.mpr ⟨k + 1, hR, ?_⟩)
            omega
    · have hEq : envValuePositions (a :: next :: rest)
          = (envValuePositions (next :: rest)).map (fun j => j + 1) := by
        simp [envValuePositions, ha]
      match i with
      | 0 => exact absurd hi (by simp [ha])
      | (k + 1) =>
        have hi' : (next :: rest).get? k = some "--env" := by simpa using hi
        rcases marker_has_value_position (next :: rest) h' k hi' with hL | hR
        · left
          rw [hEq]
          exact List.mem_map.mpr ⟨k, hL, rfl⟩
        · right
          rw [hEq]
          refine List.mem_map.mpr ⟨k + 1, hR, ?_⟩
          omega

theorem redact_idem : ∀ v : List String, v.getLast? ≠ some "--env" →
    redactDockerArgsForLogging (redactDockerArgsForLogging v) = redactDockerArgsForLogging v
  | [], _ => rfl
  | [a], h => by
    have ha : a ≠ "--env" := fun e => h (by simp [e])
    simp [redactDockerArgsForLogging, ha]
  | a :: next :: rest, h => by
    have h' : (next :: rest).getLast? ≠ some "--env" := by
      rwa [List.getLast?_cons_cons] at h
    by_cases ha : a = "--env"
    · cases rest with
      | nil => simp [redactDockerArgsForLogging, ha, redactEnvToken_fixed]
      | cons b bs =>
        have h'' : (b :: bs).getLast? ≠ some "--env" := by
          rwa [List.getLast?_cons_cons] at h'
        have hbn := redact_ne_nil b bs
        rcases hX : redactDockerArgsForLogging (b :: bs) with _ | ⟨x, xs⟩
        · exact absurd hX hbn
        · have hI := redact_idem (b :: bs) h''
          rw [hX] at hI
          simp [redactDockerArgsForLogging, ha, hX, redactEnvToken_fixed, hI]
    · have hn := redact_ne_nil next rest
      rcases hX : redactDockerArgsForLogging (next :: rest) with _ | ⟨x, xs⟩
      · exact absurd hX hn
      · have hI := redact_idem (next :: rest) h'
        rw [hX] at hI
        simp [redactDockerArgsForLogging, ha, hX, hI]

/-- A small concrete resolved configuration for the concrete scenarios. -/
def demoResolved : ResolvedSandboxConfig :=
  { image := "alpine:3.19"
    network := .none
    resources := { memory := "512m", cpus := mkRat 1 1, pidsLimit := mkRat 1 1 }
    user := { uid := mkRat 1 1, gid := mkRat 1 1 }
    mount := { hostPath := "", containerPath := "/workspace", readOnly := false }
    workdir := "/workspace"
    env := [("SECRET", "hunter2")]
    preflightTimeoutMs := mkRat 1 1
    pullTimeoutMs := mkRat 1 1
    containerNamePrefix := "p" }

/-- Run options whose verbatim argument list ends in the token `--env`. -/
def demoOptionsTrailingEnv : SandboxRunOptions :=
  { cwd := "/w", command := "sh", args := ["--env"], env := [] }

/-- Ordinary run options. -/
def demoOptions : SandboxRunOptions :=
  { cwd := "/w", command := "/usr/local/bin/opencode", args := ["--version"], env := [] }

/-- C7, counterexample. A built vector can end in the token `--env` (here it
is the last verbatim argument): the scan then pushes that token twice, so
the redacted vector is one token longer and redacting it again changes it —
redaction is neither length-preserving nor idempotent on this built
vector. -/
theorem c7_counterexample_trailing_env_not_idempotent :
    redactDockerArgsForLogging (redactDockerArgsForLogging
        (buildDockerRunSpec "/c" demoResolved demoOptionsTrailingEnv "s").args)
      ≠ redactDockerArgsForLogging
          (buildDockerRunSpec "/c" demoResolved demoOptionsTrailingEnv "s").args := by
  decide

/-- C7, amended. For every built vector whose final token is not `--env`
(every occurrence of the marker is then followed by a token), with
`envValuePositions` the positions the scan treats as marker-following value
tokens: redaction preserves the length; at every value position the token
IS replaced by its key part followed by `=<redacted>` and the preceding
token is the `--env` marker; at every other position the token is
unchanged; every `--env` occurrence is either itself at a value position
(consumed as a value) or has its successor at one (so a genuine marker's
value never survives to the log); redaction is idempotent; and the spec
field `redactedArgs` is exactly this redaction. -/
theorem c7_amended_redaction_lossless_idempotent (pc : String)
    (r : ResolvedSandboxConfig) (o : SandboxRunOptions) (sfx : String)
    (h : ((buildDockerRunSpec pc r o sfx).args).getLast? ≠ some "--env") :
    (redactDockerArgsForLogging (buildDockerRunSpec pc r o sfx).args).length
        = (buildDockerRunSpec pc r o sfx).args.length ∧
    (∀ j ∈ envValuePositions (buildDockerRunSpec pc r o sfx).args,
      (buildDockerRunSpec pc r o sfx).args.get? (j - 1) = some "--env" ∧
      (redactDockerArgsForLogging (buildDockerRunSpec pc r o sfx).args).get? j
          = ((buildDockerRunSpec pc r o sfx).args.get? j).map redactEnvToken ∧
      (((buildDockerRunSpec pc r o sfx).args.get? j).isSome = true)) ∧
    (∀ j : Nat, j ∉ envValuePositions (buildDockerRunSpec pc r o sfx).args →
      (redactDockerArgsForLogging (buildDockerRunSpec pc r o sfx).args).get? j
          = (buildDockerRunSpec pc r o sfx).args.get? j) ∧
    (∀ i : Nat, (buildDockerRunSpec pc r o sfx).args.get? i = some "--env" →
      i ∈ envValuePositions (buildDockerRunSpec pc r o sfx).args ∨
      (i + 1) ∈ envValuePositions (buildDockerRunSpec pc r o sfx).args) ∧
    redactDockerArgsForLogging (redactDockerArgsForLogging
        (buildDockerRunSpec pc r o sfx).args)
      = redactDockerArgsForLogging (buildDockerRunSpec pc r o sfx).args ∧
    (buildDockerRunSpec pc r o sfx).redactedArgs
      = redactDockerArgsForLogging (buildDockerRunSpec pc r o sfx).args :=
  ⟨redact_len _ h, redact_at_value_positions _ h, redact_off_value_positions _ h,
    marker_has_value_position _ h, redact_idem _ h, rfl⟩

/-- Witness for the amended C7 at a concrete build containing a secret
environment entry: its value position is 19 (the token `SECRET=hunter2`
after the single genuine `--env` marker), so the replacement clause is
exercised non-vacuously. -/
theorem c7_amended_witness :
    ((redactDockerArgsForLogging (buildDockerRunSpec "/c" demoResolved demoOptions "s").args).length
        = (buildDockerRunSpec "/c" demoResolved demoOptions "s").args.length ∧
    (∀ j ∈ envValuePositions (buildDockerRunSpec "/c" demoResolved demoOptions "s").args,
      (buildDockerRunSpec "/c" demoResolved demoOptions "s").args.get? (j - 1) = some "--env" ∧
      (redactDockerArgsForLogging (buildDockerRunSpec "/c" demoResolved demoOptions "s").args).get? j
          = ((buildDockerRunSpec "/c" demoResolved demoOptions "s").args.get? j).map redactEnvToken ∧
      (((buildDockerRunSpec "/c" demoResolved demoOptions "s").args.get? j).isSome = true)) ∧
    (∀ j : Nat, j ∉ envValuePositions (buildDockerRunSpec "/c" demoResolved demoOptions "s").args →
      (redactDockerArgsForLogging (buildDockerRunSpec "/c" demoResolved demoOptions "s").args).get? j
          = (buildDockerRunSpec "/c" demoResolved demoOptions "s").args.get? j) ∧
    (∀ i : Nat, (buildDockerRunSpec "/c" demoResolved demoOptions "s").args.get? i = some "--env" →
      i ∈ envValuePositions (buildDockerRunSpec "/c" demoResolved demoOptions "s").args ∨
      (i + 1) ∈ envValuePositions (buildDockerRunSpec "/c" demoResolved demoOptions "s").args) ∧
    redactDockerArgsForLogging (redactDockerArgsForLogging
        (buildDockerRunSpec "/c" demoResolved demoOptions "s").args)
      = redactDockerArgsForLogging (buildDockerRunSpec "/c" demoResolved demoOptions "s").args ∧
    (buildDockerRunSpec "/c" demoResolved demoOptions "s").redactedArgs
      = redactDockerArgsForLogging (buildDockerRunSpec "/c" demoResolved demoOptions "s").args) ∧
    envValuePositions (buildDockerRunSpec "/c" demoResolved demoOptions "s").args = [19] ∧
    (buildDockerRunSpec "/c" demoResolved demoOptions "s").args.get? 19
        = some "SECRET=hunter2" ∧
    (redactDockerArgsForLogging (buildDockerRunSpec "/c" demoResolved demoOptions "s").args).get? 19
        = some "SECRET=<redacted>" :=
  ⟨c7_amended_redaction_lossless_idempotent "/c" demoResolved demoOptions "s" (by decide),
    by decide, by decide, by decide⟩

/-! ## Lemmas: configuration resolution -/

lemma validateDockerImageName_error_not_identity (img e : String)
    (he : validateDockerImageName img = .error e) :
    e ≠ platformIdentityMessage ∧ e ≠ rootHostMessage := by
  unfold validateDockerImageName at he
  split at he
  · simp only [Except.error.injEq] at he
    subst he
    exact ⟨by decide, by decide⟩
  · split at he
    · simp only [Except.error.injEq] at he
      subst he
      exact ⟨by decide, by decide⟩
    · exact absurd he (by simp)

lemma validateUserMapping_error_not_identity (u : SandboxUserMapping) (e : String)
    (he : validateUserMapping u = .error e) :
    e ≠ platformIdentityMessage ∧ e ≠ rootHostMessage := by
  unfold validateUserMapping at he
  split at he
  · simp only [Except.error.injEq] at he
    subst he
    exact ⟨by decide, by decide⟩
  · split at he
    · simp only [Except.error.injEq] at he
      subst he
      exact ⟨by decide, by decide⟩
    · exact absurd he (by simp)

lemma validateResourceLimits_error_not_identity (l : SandboxResourceLimits) (e : String)
    (he : validateResourceLimits l = .error e) :
    e ≠ platformIdentityMessage ∧ e ≠ rootHostMessage := by
  unfold validateResourceLimits at he
  split at he
  · simp only [Except.error.injEq] at he
    subst he
    exact ⟨by decide, by decide⟩
  · split at he
    · simp only [Except.error.injEq] at he
      subst he
      exact ⟨by decide, by decide⟩
    · split at he
      · simp only [Except.error.injEq] at he
        subst he
        exact ⟨by decide, by decide⟩
      · exact absurd he (by simp)

lemma validateContainerNameHead_error_not_identity (p e : String)
    (he : validateContainerNameHead p = .error e) :
    e ≠ platformIdentityMessage ∧ e ≠ rootHostMessage := by
  unfold validateContainerNameHead at he
  split at he
  · simp only [Except.error.injEq] at he
    subst he
    exact ⟨by decide, by decide⟩
  · split at he
    · simp only [Except.error.injEq] at he
      subst he
      exact ⟨by decide, by decide⟩
    · split at he
      · exact absurd he (by simp)
      · simp only [Except.error.injEq] at he
        subst he
        exact ⟨by decide, by decide⟩

/-- With an explicit user mapping the resolver never reaches the host
identity lookup, so neither of its two errors can surface. -/
lemma resolve_explicit_user_no_identity_error (host : HostIdentity) (pc : String)
    (cfg : SandboxConfig) (u : SandboxUserMapping) (hu : cfg.user = some u) (e : String)
    (he : resolveSandboxConfig host pc cfg = .error e) :
    e ≠ platformIdentityMessage ∧ e ≠ rootHostMessage := by
  unfold resolveSandboxConfig at he
  rw [hu] at he
  by_cases hen : cfg.enabled = false
  case pos =>
    rw [if_pos hen] at he
    simp only [Except.error.injEq] at he
    subst he
    exact ⟨by decide, by decide⟩
  case neg =>
    rw [if_neg hen] at he
    cases himg : validateDockerImageName cfg.image with
    | error e1 =>
      rw [himg] at he
      dsimp only at he
      simp only [Except.error.injEq] at he
      subst he
      exact validateDockerImageName_error_not_identity _ _ himg
    | ok a =>
      rw [himg] at he
      dsimp only at he
      cases hvm : validateUserMapping u with
      | error e2 =>
        rw [hvm] at he
        dsimp only at he
        simp only [Except.error.injEq] at he
        subst he
        exact validateUserMapping_error_not_identity _ _ hvm
      | ok b =>
        rw [hvm] at he
        dsimp only at he
        cases hvr : validateResourceLimits
            { memory := (cfg.resources.bind fun r => r.memory).getD DEFAULT_LIMITS.memory,
              cpus := (cfg.resources.bind fun r => r.cpus).getD DEFAULT_LIMITS.cpus,
              pidsLimit := (cfg.resources.bind fun r => r.pidsLimit).getD DEFAULT_LIMITS.pidsLimit } with
        | error e3 =>
          rw [hvr] at he
          dsimp only at he
          simp only [Except.error.injEq] at he
          subst he
          exact validateResourceLimits_error_not_identity _ _ hvr
        | ok c =>
          rw [hvr] at he
          dsimp only at he
          have hnc : ¬(¬cfg.network.getD SandboxNetworkMode.none = SandboxNetworkMode.none ∧
              ¬cfg.network.getD SandboxNetworkMode.none = SandboxNetworkMode.bridge) := by
            rcases cfg.network.getD SandboxNetworkMode.none with _ | _ <;> simp
          rw [if_neg hnc] at he
          cases hnp : validateContainerNameHead
              (cfg.containerNamePrefix.getD DEFAULT_CONTAINER_NAME_PREFIX) with
          | error e4 =>
            rw [hnp] at he
            dsimp only at he
            simp only [Except.error.injEq] at he
            subst he
            exact validateContainerNameHead_error_not_identity _ _ hnp
          | ok d =>
            rw [hnp] at he
            dsimp only at he
            by_cases hcp : ¬strStartsWithSlash
                ((cfg.mount.bind fun m => m.containerPath).getD DEFAULT_CONTAINER_PATH) = true
            · rw [if_pos hcp] at he
              simp only [Except.error.injEq] at he
              subst he
              exact ⟨by decide, by decide⟩
            · rw [if_neg hcp] at he
              by_cases hwd : ¬strStartsWithSlash
                  (cfg.workdir.getD
                    ((cfg.mount.bind fun m => m.containerPath).getD DEFAULT_CONTAINER_PATH)) = true
              · rw [if_pos hwd] at he
                simp only [Except.error.injEq] at he
                subst he
                exact ⟨by decide, by decide⟩
              · rw [if_neg hwd] at he
                exact absurd he (by simp)

/-- With an explicit user mapping, resolution never consults the host
identity: the result is the same for every host. -/
lemma resolve_host_independent (h1 h2 : HostIdentity) (pc : String)
    (cfg : SandboxConfig) (u : SandboxUserMapping) (hu : cfg.user = some u) :
    resolveSandboxConfig h1 pc cfg = resolveSandboxConfig h2 pc cfg := by
  unfold resolveSandboxConfig
  rw [hu]

lemma validateUserMapping_uid_zero (u : SandboxUserMapping) (h0 : u.uid = 0)
    (hg : jsNumberIsInteger u.gid = true) :
    validateUserMapping u = .error rootMappingMessage := by
  have hA : jsNumberIsInteger (0 : Rat) = true := by decide
  unfold validateUserMapping
  rw [h0]
  rw [if_neg (by simp [hA, hg])]
  rw [if_pos (Or.inl (le_refl (0 : Rat)))]

lemma resolve_uid_zero_fails (host : HostIdentity) (pc : String) (cfg : SandboxConfig)
    (u : SandboxUserMapping) (hu : cfg.user = some u) (h0 : u.uid = 0)
    (hg : jsNumberIsInteger u.gid = true) :
    (¬∃ r, resolveSandboxConfig host pc cfg = Except.ok r) ∧
    (cfg.enabled = true → validateDockerImageName cfg.image = Except.ok () →
      resolveSandboxConfig host pc cfg = Except.error rootMappingMessage) := by
  constructor
  · rintro ⟨r, hr⟩
    unfold resolveSandboxConfig at hr
    rw [hu] at hr
    by_cases hen : cfg.enabled = false
    · rw [if_pos hen] at hr
      exact absurd hr (by simp)
    · rw [if_neg hen] at hr
      cases himg : validateDockerImageName cfg.image with
      | error e1 =>
        rw [himg] at hr
        dsimp only at hr
        exact absurd hr (by simp)
      | ok a =>
        rw [himg] at hr
        dsimp only at hr
        rw [validateUserMapping_uid_zero u h0 hg] at hr
        dsimp only at hr
        exact absurd hr (by simp)
  · intro hen himg
    unfold resolveSandboxConfig
    rw [hu]
    rw [if_neg (by simp [hen])]
    rw [himg]
    dsimp only
    rw [validateUserMapping_uid_zero u h0 hg]

/-- C5. The user-mapping step is a security gate: an explicit mapping means
resolution is independent of the host identity surface (first conjunct); a
strictly positive integer mapping can never fail with either
identity-lookup error (second conjunct); an explicit mapping with uid 0
always fails, and fails with the root-rejection error whenever the earlier
checks pass (third conjunct). -/
theorem c5_explicit_user_mapping_is_security_gate (h1 h2 host : HostIdentity)
    (pc : String) (cfg : SandboxConfig) (u : SandboxUserMapping)
    (hu : cfg.user = some u) :
    resolveSandboxConfig h1 pc cfg = resolveSandboxConfig h2 pc cfg ∧
    (jsNumberIsInteger u.uid = true → jsNumberIsInteger u.gid = true →
      0 < u.uid → 0 < u.gid →
      resolveSandboxConfig host pc cfg ≠ Except.error platformIdentityMessage ∧
      resolveSandboxConfig host pc cfg ≠ Except.error rootHostMessage) ∧
    (u.uid = 0 → jsNumberIsInteger u.gid = true →
      (¬∃ r, resolveSandboxConfig host pc cfg = Except.ok r) ∧
      (cfg.enabled = true → validateDockerImageName cfg.image = Except.ok () →
        resolveSandboxConfig host pc cfg = Except.error rootMappingMessage)) := by
  refine ⟨resolve_host_independent h1 h2 pc cfg u hu, ?_, ?_⟩
  · intro _ _ _ _
    constructor
    · intro hcon
      exact (resolve_explicit_user_no_identity_error host pc cfg u hu _ hcon).1 rfl
    · intro hcon
      exact (resolve_explicit_user_no_identity_error host pc cfg u hu _ hcon).2 rfl
  · intro h0 hg
    exact resolve_uid_zero_fails host pc cfg u hu h0 hg

/-- The concrete configuration of the spec scenarios. -/
def alpineConfig : SandboxConfig :=
  { enabled := true
    image := "alpine:3.19"
    network := Option.none
    resources := Option.none
    user := some { uid := mkRat 1000 1, gid := mkRat 1000 1 }
    mount := Option.none
    workdir := Option.none
    env := Option.none
    preflightTimeoutMs := Option.none
    pullTimeoutMs := Option.none
    containerNamePrefix := Option.none }

/-- The same configuration with a root user mapping. -/
def alpineRootConfig : SandboxConfig :=
  { alpineConfig with user := some { uid := mkRat 0 1, gid := mkRat 1000 1 } }

/-- A host without an identity surface (e.g. Windows). -/
def hostUnavailable : HostIdentity := { getuid := Option.none, getgid := Option.none }

/-- A host whose identity is an ordinary non-root user. -/
def hostAvailable : HostIdentity :=
  { getuid := some (mkRat 1000 1), getgid := some (mkRat 1000 1) }

/-- Witness for C5 at the two concrete configurations of the spec. -/
theorem c5_witness :
    resolveSandboxConfig hostAvailable "/cwd" alpineConfig
        = resolveSandboxConfig hostUnavailable "/cwd" alpineConfig ∧
    resolveSandboxConfig hostUnavailable "/cwd" alpineConfig
        ≠ Except.error platformIdentityMessage ∧
    resolveSandboxConfig hostUnavailable "/cwd" alpineConfig
        ≠ Except.error rootHostMessage ∧
    resolveSandboxConfig hostUnavailable "/cwd" alpineRootConfig
        = Except.error rootMappingMessage := by
  have hA := c5_explicit_user_mapping_is_security_gate hostAvailable hostUnavailable
      hostUnavailable "/cwd" alpineConfig { uid := mkRat 1000 1, gid := mkRat 1000 1 } rfl
  have hB := c5_explicit_user_mapping_is_security_gate hostAvailable hostUnavailable
      hostUnavailable "/cwd" alpineRootConfig { uid := mkRat 0 1, gid := mkRat 1000 1 } rfl
  have hpos := hA.2.1 (by decide) (by decide) (by decide) (by decide)
  exact ⟨hA.1, hpos.1, hpos.2, (hB.2.2 (by decide) (by decide)).2 rfl (by rfl)⟩

/-- C9. Resolving the concrete configuration succeeds with the isolated
network mode (the literal `none`), the default memory, CPU-share and
process-count limits, and the explicit user mapping. -/
theorem c9_concrete_resolution_defaults :
    resolveSandboxConfig hostUnavailable "/cwd" alpineConfig = Except.ok
      { image := "alpine:3.19"
        network := SandboxNetworkMode.none
        resources := DEFAULT_LIMITS
        user := { uid := mkRat 1000 1, gid := mkRat 1000 1 }
        mount := { hostPath := "", containerPath := "/workspace", readOnly := false }
        workdir := "/workspace"
        env := []
        preflightTimeoutMs := DEFAULT_PREFLIGHT_TIMEOUT_MS
        pullTimeoutMs := DEFAULT_PULL_TIMEOUT_MS
        containerNamePrefix := DEFAULT_CONTAINER_NAME_PREFIX } ∧
    DEFAULT_LIMITS = { memory := "512m", cpus := mkRat 1 2, pidsLimit := mkRat 50 1 } ∧
    sandboxNetworkModeString SandboxNetworkMode.none = "none" :=
  ⟨by rfl, rfl, rfl⟩
